import Mathlib

/-!
Verification development for the client-idle filter, the event-engine timer
contract and the wakeup-fd factory of this gRPC snapshot.

The idle tracker (src/core/ext/filters/client_idle/client_idle_filter.cc) is
embedded at two granularities:

* a fine-grained interleaving model (`stepThread`, `runSched`): every atomic
  memory access of `IncreaseCallCount`, `DecreaseCallCount` and
  `IdleTimerCallback` is one step, and an explicit schedule interleaves the
  threads (this is a sequentially-consistent subset of the C++ executions, so
  any behaviour exhibited here is a real behaviour of the code);

* a coarse per-operation model (`IncreaseCallCount`, `DecreaseCallCount`,
  `IdleTimerCallback`, `runEvents`): each operation runs to completion
  atomically, which matches the spec's "quiescent point" statements.

`compare_exchange_weak` is modelled as strong CAS: a spurious failure only
repeats a loop iteration and, in a run without interference, the success path
is taken, which is the behaviour the per-operation model captures.
C++ memory-order annotations (acquire/release/relaxed) have no counterpart in
this sequentially-consistent embedding.
-/

namespace Grpc

/-- ChannelState of client_idle_filter.cc (enum at lines 111-118). -/
inductive ChannelState where
  | IDLE
  | CALLS_ACTIVE
  | TIMER_PENDING
  | TIMER_PENDING_CALLS_ACTIVE
  | TIMER_PENDING_CALLS_SEEN_SINCE_TIMER_START
  | PROCESSING
deriving DecidableEq

/-- Shared mutable data of `ChannelData`: the atomic counter `call_count_`,
the atomic `state_`, the plain field `last_idle_time_`, the constant
`client_idle_timeout_`, and the idle timer (`timer_set` is whether
`idle_timer_` is armed, `timer_deadline` its deadline). -/
structure Shared where
  call_count_ : Int
  state_ : ChannelState
  last_idle_time_ : Int
  client_idle_timeout_ : Int
  timer_set : Bool
  timer_deadline : Int

/-- `ChannelData::StartIdleTimer`: arm `idle_timer_` for
`last_idle_time_ + client_idle_timeout_` (the channel-stack ref it takes is
not modelled). -/
def StartIdleTimer (c : Shared) : Shared :=
  { c with timer_set := true,
           timer_deadline := c.last_idle_time_ + c.client_idle_timeout_ }

/-- `ChannelData::EnterIdle` sends the enter-idle transport op downstream; the
emission is recorded together with the value of `call_count_` at the moment it
happens, which is what the no-spurious-idle property is about. -/
def EnterIdle (c : Shared) : List Int :=
  [c.call_count_]

/-- `grpc_timer_cancel(&idle_timer_)`: the timer is no longer pending (a
callback already in flight is delivered as a cancelled firing). -/
def grpc_timer_cancel (c : Shared) : Shared :=
  { c with timer_set := false }

/-- Program counters of the three operations of the idle tracker, one
constructor per atomic access of the C++ code (plus `finished`).  The loop
constructors carry the thread-local `state` variable. -/
inductive ThreadCode where
  | incFetchAdd
  | incLoad
  | incLoop (s : ChannelState)
  | decFetchSub (now : Int)
  | decRecordIdleTime (now : Int)
  | decLoad
  | decLoop (s : ChannelState)
  | decStoreTimerPending
  | timerFire (cancelled : Bool)
  | timerLoad
  | timerLoop (s : ChannelState)
  | timerEnterIdle
  | timerStoreIdle
  | timerStartTimer
  | timerStoreTimerPending
  | finished
deriving DecidableEq

/-- One atomic step of a thread running inside the idle tracker; returns the
new shared state, the thread's next program counter, and the EnterIdle
emissions of the step.  Each arm is one atomic access of
client_idle_filter.cc:

* `incFetchAdd`: `call_count_.fetch_add(1)`; prior value 0 enters the loop;
* `incLoad` / reload arms: `state_.load(...)`;
* `incLoop`: the switch of `IncreaseCallCount` (IDLE: plain store of
  CALLS_ACTIVE; TIMER_PENDING / TIMER_PENDING_CALLS_SEEN_SINCE_TIMER_START:
  CAS to TIMER_PENDING_CALLS_ACTIVE, on failure the expected value is
  replaced by the current one; default: reload and retry);
* `decFetchSub`: `call_count_.fetch_sub(1)`; prior value 1 continues;
* `decRecordIdleTime`: `last_idle_time_ = ExecCtx::Get()->Now()`;
* `decLoop`: the switch of `DecreaseCallCount` (CALLS_ACTIVE: StartIdleTimer
  then a separate store of TIMER_PENDING; TIMER_PENDING_CALLS_ACTIVE: CAS to
  TIMER_PENDING_CALLS_SEEN_SINCE_TIMER_START; default: reload and retry);
* `timerFire`: entry of `IdleTimerCallback`; nothing happens unless the timer
  was armed; a cancelled callback (error != GRPC_ERROR_NONE) only unrefs;
* `timerLoop`: the switch of `IdleTimerCallback` (TIMER_PENDING: CAS to
  PROCESSING then EnterIdle then store IDLE; TIMER_PENDING_CALLS_ACTIVE: CAS
  to CALLS_ACTIVE; TIMER_PENDING_CALLS_SEEN_SINCE_TIMER_START: CAS to
  PROCESSING then StartIdleTimer then store TIMER_PENDING; default: reload). -/
def stepThread (c : Shared) : ThreadCode → Shared × ThreadCode × List Int
  | .incFetchAdd =>
      let prev := c.call_count_
      ({ c with call_count_ := prev + 1 },
       if prev = 0 then .incLoad else .finished, [])
  | .incLoad => (c, .incLoop c.state_, [])
  | .incLoop s =>
      match s with
      | .IDLE => ({ c with state_ := .CALLS_ACTIVE }, .finished, [])
      | .TIMER_PENDING =>
          if c.state_ = s then
            ({ c with state_ := .TIMER_PENDING_CALLS_ACTIVE }, .finished, [])
          else (c, .incLoop c.state_, [])
      | .TIMER_PENDING_CALLS_SEEN_SINCE_TIMER_START =>
          if c.state_ = s then
            ({ c with state_ := .TIMER_PENDING_CALLS_ACTIVE }, .finished, [])
          else (c, .incLoop c.state_, [])
      | _ => (c, .incLoop c.state_, [])
  | .decFetchSub now =>
      let prev := c.call_count_
      ({ c with call_count_ := prev - 1 },
       if prev = 1 then .decRecordIdleTime now else .finished, [])
  | .decRecordIdleTime now =>
      ({ c with last_idle_time_ := now }, .decLoad, [])
  | .decLoad => (c, .decLoop c.state_, [])
  | .decLoop s =>
      match s with
      | .CALLS_ACTIVE => (StartIdleTimer c, .decStoreTimerPending, [])
      | .TIMER_PENDING_CALLS_ACTIVE =>
          if c.state_ = s then
            ({ c with state_ := .TIMER_PENDING_CALLS_SEEN_SINCE_TIMER_START },
             .finished, [])
          else (c, .decLoop c.state_, [])
      | _ => (c, .decLoop c.state_, [])
  | .decStoreTimerPending => ({ c with state_ := .TIMER_PENDING }, .finished, [])
  | .timerFire cancelled =>
      if c.timer_set then
        ({ c with timer_set := false },
         if cancelled then .finished else .timerLoad, [])
      else (c, .finished, [])
  | .timerLoad => (c, .timerLoop c.state_, [])
  | .timerLoop s =>
      match s with
      | .TIMER_PENDING =>
          if c.state_ = s then ({ c with state_ := .PROCESSING }, .timerEnterIdle, [])
          else (c, .timerLoop c.state_, [])
      | .TIMER_PENDING_CALLS_ACTIVE =>
          if c.state_ = s then ({ c with state_ := .CALLS_ACTIVE }, .finished, [])
          else (c, .timerLoop c.state_, [])
      | .TIMER_PENDING_CALLS_SEEN_SINCE_TIMER_START =>
          if c.state_ = s then ({ c with state_ := .PROCESSING }, .timerStartTimer, [])
          else (c, .timerLoop c.state_, [])
      | _ => (c, .timerLoop c.state_, [])
  | .timerEnterIdle => (c, .timerStoreIdle, EnterIdle c)
  | .timerStoreIdle => ({ c with state_ := .IDLE }, .finished, [])
  | .timerStartTimer => (StartIdleTimer c, .timerStoreTimerPending, [])
  | .timerStoreTimerPending => ({ c with state_ := .TIMER_PENDING }, .finished, [])
  | .finished => (c, .finished, [])

/-- A fine-grained configuration: the shared `ChannelData` fields, one program
counter per thread, and the log of EnterIdle emissions so far. -/
structure Cfg where
  shared : Shared
  threads : List ThreadCode
  log : List Int

/-- Run one atomic step of thread `i` (out-of-range indices do nothing). -/
def stepCfg (cfg : Cfg) (i : Nat) : Cfg :=
  match cfg.threads.get? i with
  | none => cfg
  | some tc =>
      let r := stepThread cfg.shared tc
      { shared := r.1, threads := cfg.threads.set i r.2.1, log := cfg.log ++ r.2.2 }

/-- Run a schedule: a list of thread indices, each performing one atomic step. -/
def runSched (cfg : Cfg) : List Nat → Cfg
  | [] => cfg
  | i :: rest => runSched (stepCfg cfg i) rest

/-- `ChannelData::IncreaseCallCount` run to completion with no interference
(per-operation model): `fetch_add(1)`; when the prior value is 0, transition
IDLE → CALLS_ACTIVE (plain store) or TIMER_PENDING /
TIMER_PENDING_CALLS_SEEN_SINCE_TIMER_START → TIMER_PENDING_CALLS_ACTIVE
(CAS).  The default arm of the switch busy-spins waiting for another thread;
with no other thread running it never completes, so the model leaves the
shared state as it stands (such entry states do not occur at quiescent
points, see `countOk`). -/
def IncreaseCallCount (c : Shared) : Shared :=
  let prev := c.call_count_
  let c1 := { c with call_count_ := prev + 1 }
  if prev = 0 then
    match c1.state_ with
    | .IDLE => { c1 with state_ := .CALLS_ACTIVE }
    | .TIMER_PENDING => { c1 with state_ := .TIMER_PENDING_CALLS_ACTIVE }
    | .TIMER_PENDING_CALLS_SEEN_SINCE_TIMER_START =>
        { c1 with state_ := .TIMER_PENDING_CALLS_ACTIVE }
    | _ => c1
  else c1

/-- `ChannelData::DecreaseCallCount` run to completion with no interference:
`fetch_sub(1)`; when the prior value is 1, record `last_idle_time_ = now`,
then transition CALLS_ACTIVE → TIMER_PENDING (StartIdleTimer, then store) or
TIMER_PENDING_CALLS_ACTIVE → TIMER_PENDING_CALLS_SEEN_SINCE_TIMER_START
(CAS).  The default arm busy-spins as in `IncreaseCallCount`. -/
def DecreaseCallCount (c : Shared) (now : Int) : Shared :=
  let prev := c.call_count_
  let c1 := { c with call_count_ := prev - 1 }
  if prev = 1 then
    let c2 := { c1 with last_idle_time_ := now }
    match c2.state_ with
    | .CALLS_ACTIVE => { StartIdleTimer c2 with state_ := .TIMER_PENDING }
    | .TIMER_PENDING_CALLS_ACTIVE =>
        { c2 with state_ := .TIMER_PENDING_CALLS_SEEN_SINCE_TIMER_START }
    | _ => c2
  else c1

/-- `ChannelData::IdleTimerCallback` run to completion with no interference.
The callback only runs for an armed timer (so nothing happens when
`timer_set` is false); a cancelled firing (`error != GRPC_ERROR_NONE`) only
unrefs the channel stack.  Otherwise: TIMER_PENDING: CAS to PROCESSING,
EnterIdle, store IDLE; TIMER_PENDING_CALLS_ACTIVE: CAS to CALLS_ACTIVE;
TIMER_PENDING_CALLS_SEEN_SINCE_TIMER_START: CAS to PROCESSING,
StartIdleTimer, store TIMER_PENDING.  The default arm busy-spins. -/
def IdleTimerCallback (c : Shared) (cancelled : Bool) : Shared × List Int :=
  if c.timer_set then
    let c0 := { c with timer_set := false }
    if cancelled then (c0, [])
    else
      match c0.state_ with
      | .TIMER_PENDING => ({ c0 with state_ := .IDLE }, EnterIdle c0)
      | .TIMER_PENDING_CALLS_ACTIVE => ({ c0 with state_ := .CALLS_ACTIVE }, [])
      | .TIMER_PENDING_CALLS_SEEN_SINCE_TIMER_START =>
          ({ StartIdleTimer c0 with state_ := .TIMER_PENDING }, [])
      | _ => (c0, [])
  else (c, [])

/-- The disconnect path of `ChannelData::StartTransportOp`: a transport op
carrying `disconnect_with_error` performs a phony `IncreaseCallCount()` and
then `grpc_timer_cancel(&idle_timer_)`. -/
def StartTransportOpDisconnect (c : Shared) : Shared :=
  grpc_timer_cancel (IncreaseCallCount c)

/-- Quiescent-level events of the idle tracker. -/
inductive Event where
  | inc
  | dec (now : Int)
  | fire (cancelled : Bool)

/-- Apply one event as an atomic operation (per-operation model). -/
def applyEvent (c : Shared) : Event → Shared × List Int
  | .inc => (IncreaseCallCount c, [])
  | .dec now => (DecreaseCallCount c now, [])
  | .fire cancelled => IdleTimerCallback c cancelled

/-- Apply a sequence of events, collecting all EnterIdle emissions. -/
def runEvents (c : Shared) : List Event → Shared × List Int
  | [] => (c, [])
  | e :: r =>
      let p := applyEvent c e
      let q := runEvents p.1 r
      (q.1, p.2 ++ q.2)

/-- Initial `ChannelData` (constructor at lines 288-308): counter 0, state
IDLE, timer initialized unset. -/
def initShared (timeout : Int) : Shared :=
  { call_count_ := 0, state_ := .IDLE, last_idle_time_ := 0,
    client_idle_timeout_ := timeout, timer_set := false, timer_deadline := 0 }

/-- Number of `inc` events in a sequence. -/
def numIncs : List Event → Nat
  | [] => 0
  | .inc :: r => numIncs r + 1
  | .dec _ :: r => numIncs r
  | .fire _ :: r => numIncs r

/-- Number of `dec` events in a sequence. -/
def numDecs : List Event → Nat
  | [] => 0
  | .inc :: r => numDecs r
  | .dec _ :: r => numDecs r + 1
  | .fire _ :: r => numDecs r

/-- Well-formed call sequences: starting from counter `n`, every decrement is
matched by a preceding increment (`DecreaseCallCount` is only called by
`CallData::Destroy`, after the matching `CallData::Init` called
`IncreaseCallCount`). -/
def wfCalls : Int → List Event → Bool
  | _, [] => true
  | n, .inc :: r => wfCalls (n + 1) r
  | n, .dec _ :: r => decide (1 ≤ n) && wfCalls (n - 1) r
  | n, .fire _ :: r => wfCalls n r

/-- Event sequences in which the phony call introduced by disconnect is never
decremented: starting from counter `n`, every decrement happens while the
counter is at least 2. -/
def noMatchingDec : Int → List Event → Bool
  | _, [] => true
  | n, .inc :: r => noMatchingDec (n + 1) r
  | n, .dec _ :: r => decide (2 ≤ n) && noMatchingDec (n - 1) r
  | n, .fire _ :: r => noMatchingDec n r

/-- The counter discipline of the state table (comment at lines 54-62 of
client_idle_filter.cc): the idle-side states have counter 0, the busy-side
states have a positive counter, and PROCESSING is never observed at a
quiescent point. -/
def countOk (c : Shared) : Prop :=
  match c.state_ with
  | .IDLE => c.call_count_ = 0
  | .TIMER_PENDING => c.call_count_ = 0
  | .TIMER_PENDING_CALLS_SEEN_SINCE_TIMER_START => c.call_count_ = 0
  | .CALLS_ACTIVE => 1 ≤ c.call_count_
  | .TIMER_PENDING_CALLS_ACTIVE => 1 ≤ c.call_count_
  | .PROCESSING => False

/-- Post-disconnect parking: the state is CALLS_ACTIVE or
TIMER_PENDING_CALLS_ACTIVE and the counter is positive. -/
def parked (c : Shared) : Prop :=
  (c.state_ = .CALLS_ACTIVE ∨ c.state_ = .TIMER_PENDING_CALLS_ACTIVE) ∧
    1 ≤ c.call_count_

/-- A fine-grained configuration exhibiting the increment/timer race: the
channel performs one full call (IncreaseCallCount then DecreaseCallCount,
which arms the idle timer), then a second call arrives while the timer
fires. -/
def raceCfg : Cfg :=
  { shared := initShared 1000,
    threads := [.incFetchAdd, .decFetchSub 5, .incFetchAdd, .timerFire false],
    log := [] }

/-- The racing schedule: thread 0 runs IncreaseCallCount to completion,
thread 1 runs DecreaseCallCount to completion (arming the timer, state
TIMER_PENDING), thread 2 performs only its `fetch_add` (counter becomes 1),
then thread 3 (the timer callback) loads TIMER_PENDING, CASes to PROCESSING
and calls EnterIdle while `call_count_ = 1`. -/
def raceSched : List Nat :=
  [0, 0, 0, 1, 1, 1, 1, 1, 2, 3, 3, 3, 3]

/-- INT_MAX (the filter is built with 32-bit `int`). -/
def INT_MAX : Int := 2147483647

/-- DEFAULT_IDLE_TIMEOUT_MS (line 33): INT_MAX. -/
def DEFAULT_IDLE_TIMEOUT_MS : Int := INT_MAX

/-- MIN_IDLE_TIMEOUT_MS (line 35): 1 second. -/
def MIN_IDLE_TIMEOUT_MS : Int := 1000

/-- The `grpc_integer_options` triple passed to `grpc_channel_arg_get_integer`. -/
structure IntegerOptions where
  default_value : Int
  min_value : Int
  max_value : Int

/-- Modelled from the spec: `grpc_channel_arg_get_integer` (channel_args.cc is
not among the sources; only its caller is).  A channel-args lookup is
represented by the integer value found for the key, or `none` when the key is
absent (or not an integer); the helper returns the default in that case and
otherwise clamps the configured value into `[min_value, max_value]`. -/
def grpc_channel_arg_get_integer (arg : Option Int) (options : IntegerOptions) : Int :=
  match arg with
  | none => options.default_value
  | some v =>
      if v < options.min_value then options.min_value
      else if v > options.max_value then options.max_value
      else v

/-- `GetClientIdleTimeout` (lines 120-126): the configured
`GRPC_ARG_CLIENT_IDLE_TIMEOUT_MS` value read with options
`{DEFAULT_IDLE_TIMEOUT_MS, 0, INT_MAX}`, raised to `MIN_IDLE_TIMEOUT_MS`. -/
def GetClientIdleTimeout (arg : Option Int) : Int :=
  max (grpc_channel_arg_get_integer arg
        ⟨DEFAULT_IDLE_TIMEOUT_MS, 0, INT_MAX⟩)
      MIN_IDLE_TIMEOUT_MS

/-- `MaybeAddClientIdleFilter` (lines 425-436), as the predicate "the
client-idle filter is prepended to the channel stack": this happens exactly
when a minimal stack is not requested and `GetClientIdleTimeout` is not
INT_MAX. -/
def MaybeAddClientIdleFilter (want_minimal_stack : Bool) (arg : Option Int) : Bool :=
  !want_minimal_stack && !(GetClientIdleTimeout arg == INT_MAX)

/-- Status of one scheduled deadline task. -/
inductive TaskStatus where
  | pending
  | ran
  | cancelled
deriving DecidableEq

/-- Modelled from the spec: the deadline-task bookkeeping behind
`EventEngine::RunAt` / `EventEngine::Cancel` (event_engine.h declares only the
pure-virtual interface; no implementation is among the sources).  Each handle
maps to the status of its task; `next_id` is the next fresh handle. -/
structure TimerService where
  next_id : Nat
  status : Nat → TaskStatus

/-- Modelled from the spec: `RunAt(deadline, closure)` registers a new pending
task and returns its handle. -/
def RunAt (e : TimerService) : TimerService × Nat :=
  ({ next_id := e.next_id + 1,
     status := fun j => if j = e.next_id then .pending else e.status j },
   e.next_id)

/-- Modelled from the spec: the engine dispatches a due task; the closure runs
(result `true`) exactly when the task is still pending. -/
def dispatchTask (e : TimerService) (h : Nat) : TimerService × Bool :=
  match e.status h with
  | .pending =>
      ({ e with status := fun j => if j = h then .ran else e.status j }, true)
  | _ => (e, false)

/-- Modelled from the spec: `Cancel(handle)` returns true - and guarantees the
closure never runs - exactly when the closure had not yet been dispatched;
otherwise it returns false. -/
def Cancel (e : TimerService) (h : Nat) : TimerService × Bool :=
  match e.status h with
  | .pending =>
      ({ e with status := fun j => if j = h then .cancelled else e.status j }, true)
  | _ => (e, false)

/-- Engine actions touching the deadline-task table. -/
inductive EngineAction where
  | dispatch (h : Nat)
  | cancel (h : Nat)

/-- Run a list of engine actions, counting, for the task with handle `h`, how
often its closure was invoked and how often a `Cancel` on it returned true. -/
def runActs (e : TimerService) (h : Nat) : List EngineAction → TimerService × Nat × Nat
  | [] => (e, 0, 0)
  | .dispatch k :: r =>
      let p := dispatchTask e k
      let q := runActs p.1 h r
      (q.1, (if k == h && p.2 then 1 else 0) + q.2.1, q.2.2)
  | .cancel k :: r =>
      let p := Cancel e k
      let q := runActs p.1 h r
      (q.1, q.2.1, (if k == h && p.2 then 1 else 0) + q.2.2)

/-- Result of `CreateWakeupFd` (wakeup_fd_posix.h): either a wakeup fd built
by the registered factory, or the `absl::NotFoundError` "Wakeup-fd is not
supported on this system". -/
inductive WakeupFdResult (F : Type) where
  | ok (fd : F)
  | notFound

/-- `SetDefaultWakeupFdFactoryIfUnset` (wakeup_fd_posix.cc, src/unnamed/part_003
lines 39-45): under `g_mu`, store `factory` into `g_wakeup_fd_fn` only when the
latter is still nullptr.  `Option F` stands for the `std::function` global,
`none` being nullptr; the argument is likewise a possibly-null function. -/
def SetDefaultWakeupFdFactoryIfUnset {F : Type} (factory : Option F) (g : Option F) : Option F :=
  match g with
  | none => factory
  | some _ => g

/-- `SupportsWakeupFd`: whether `g_wakeup_fd_fn` is non-null. -/
def SupportsWakeupFd {F : Type} (g : Option F) : Bool :=
  g.isSome

/-- `CreateWakeupFd` (src/unnamed/part_003 lines 52-57): invoke the registered
factory when one is registered, otherwise return the NotFound error.  A
factory is identified with the wakeup fd it produces. -/
def CreateWakeupFd {F : Type} (g : Option F) : WakeupFdResult F :=
  if SupportsWakeupFd g then
    match g with
    | some f => .ok f
    | none => .notFound
  else .notFound

end Grpc


namespace Grpc

/-- `IncreaseCallCount` always adds one to the counter (the state loop never
touches it). -/
theorem IncreaseCallCount_count (c : Shared) :
    (IncreaseCallCount c).call_count_ = c.call_count_ + 1 := by
  obtain ⟨cc, st, lit, cit, ts, td⟩ := c
  by_cases h : cc = 0
  · subst h; cases st <;> simp [IncreaseCallCount]
  · simp [IncreaseCallCount, h]

/-- `DecreaseCallCount` always subtracts one from the counter. -/
theorem DecreaseCallCount_count (c : Shared) (now : Int) :
    (DecreaseCallCount c now).call_count_ = c.call_count_ - 1 := by
  obtain ⟨cc, st, lit, cit, ts, td⟩ := c
  by_cases h : cc = 1
  · subst h; cases st <;> simp [DecreaseCallCount, StartIdleTimer]
  · simp [DecreaseCallCount, h]

/-- `IdleTimerCallback` never touches the counter. -/
theorem IdleTimerCallback_count (c : Shared) (b : Bool) :
    (IdleTimerCallback c b).1.call_count_ = c.call_count_ := by
  obtain ⟨cc, st, lit, cit, ts, td⟩ := c
  cases ts
  · simp [IdleTimerCallback]
  · cases b
    · cases st <;> simp [IdleTimerCallback, StartIdleTimer]
    · simp [IdleTimerCallback]

/-- `IncreaseCallCount` preserves the counter discipline of the state table. -/
theorem IncreaseCallCount_countOk {c : Shared} (h : countOk c) :
    countOk (IncreaseCallCount c) := by
  obtain ⟨cc, st, lit, cit, ts, td⟩ := c
  cases st
  case IDLE =>
    simp only [countOk] at h; subst h
    simp [IncreaseCallCount, countOk]
  case CALLS_ACTIVE =>
    simp only [countOk] at h
    have hne : cc ≠ 0 := by omega
    simp [IncreaseCallCount, hne, countOk]; omega
  case TIMER_PENDING =>
    simp only [countOk] at h; subst h
    simp [IncreaseCallCount, countOk]
  case TIMER_PENDING_CALLS_ACTIVE =>
    simp only [countOk] at h
    have hne : cc ≠ 0 := by omega
    simp [IncreaseCallCount, hne, countOk]; omega
  case TIMER_PENDING_CALLS_SEEN_SINCE_TIMER_START =>
    simp only [countOk] at h; subst h
    simp [IncreaseCallCount, countOk]
  case PROCESSING =>
    simp only [countOk] at h

/-- `DecreaseCallCount` preserves the counter discipline when the decrement is
matched by a preceding increment. -/
theorem DecreaseCallCount_countOk {c : Shared} (now : Int) (h : countOk c)
    (h1 : 1 ≤ c.call_count_) : countOk (DecreaseCallCount c now) := by
  obtain ⟨cc, st, lit, cit, ts, td⟩ := c
  simp only at h1
  cases st
  case IDLE => simp only [countOk] at h; omega
  case TIMER_PENDING => simp only [countOk] at h; omega
  case TIMER_PENDING_CALLS_SEEN_SINCE_TIMER_START => simp only [countOk] at h; omega
  case CALLS_ACTIVE =>
    by_cases h2 : cc = 1
    · subst h2; simp [DecreaseCallCount, StartIdleTimer, countOk]
    · simp [DecreaseCallCount, h2, countOk]; omega
  case TIMER_PENDING_CALLS_ACTIVE =>
    by_cases h2 : cc = 1
    · subst h2; simp [DecreaseCallCount, countOk]
    · simp [DecreaseCallCount, h2, countOk]; omega
  case PROCESSING => simp only [countOk] at h

/-- `IdleTimerCallback` preserves the counter discipline, and every EnterIdle
it emits happens with counter 0. -/
theorem IdleTimerCallback_countOk {c : Shared} (b : Bool) (h : countOk c) :
    countOk (IdleTimerCallback c b).1 ∧
      ∀ v ∈ (IdleTimerCallback c b).2, v = 0 := by
  obtain ⟨cc, st, lit, cit, ts, td⟩ := c
  cases ts
  · simpa [IdleTimerCallback, countOk] using h
  · cases b
    · cases st <;>
        simp only [countOk] at h <;>
        simp [IdleTimerCallback, StartIdleTimer, EnterIdle, countOk] <;>
        omega
    · simpa [IdleTimerCallback, countOk] using h

/-- Along any well-formed event sequence the counter discipline is maintained
and every EnterIdle emission happens with counter 0. -/
theorem runEvents_noSpurious :
    ∀ (evs : List Event) (c : Shared), countOk c →
      wfCalls c.call_count_ evs = true →
      countOk (runEvents c evs).1 ∧ ∀ v ∈ (runEvents c evs).2, v = 0 := by
  intro evs
  induction evs with
  | nil =>
      intro c h _
      exact ⟨h, by simp [runEvents]⟩
  | cons e r ih =>
      intro c h hwf
      cases e with
      | inc =>
          simp only [wfCalls] at hwf
          have hwf' : wfCalls (IncreaseCallCount c).call_count_ r = true := by
            rw [IncreaseCallCount_count]; exact hwf
          have hrec := ih (IncreaseCallCount c) (IncreaseCallCount_countOk h) hwf'
          simpa [runEvents, applyEvent] using hrec
      | dec now =>
          simp only [wfCalls, Bool.and_eq_true, decide_eq_true_eq] at hwf
          have hwf' : wfCalls (DecreaseCallCount c now).call_count_ r = true := by
            rw [DecreaseCallCount_count]; exact hwf.2
          have hrec := ih (DecreaseCallCount c now)
            (DecreaseCallCount_countOk now h hwf.1) hwf'
          simpa [runEvents, applyEvent] using hrec
      | fire b =>
          simp only [wfCalls] at hwf
          have hwf' : wfCalls (IdleTimerCallback c b).1.call_count_ r = true := by
            rw [IdleTimerCallback_count]; exact hwf
          have hfire := IdleTimerCallback_countOk b h
          have hrec := ih (IdleTimerCallback c b).1 hfire.1 hwf'
          refine ⟨by simpa [runEvents, applyEvent] using hrec.1, ?_⟩
          intro v hv
          simp only [runEvents, applyEvent, List.mem_append] at hv
          rcases hv with hv | hv
          · exact hfire.2 v hv
          · exact hrec.2 v hv

/-- The counter after an event sequence is its initial value plus the number
of increments minus the number of decrements. -/
theorem runEvents_count :
    ∀ (evs : List Event) (c : Shared),
      (runEvents c evs).1.call_count_ =
        c.call_count_ + (numIncs evs : Int) - (numDecs evs : Int) := by
  intro evs
  induction evs with
  | nil => intro c; simp [runEvents, numIncs, numDecs]
  | cons e r ih =>
      intro c
      cases e with
      | inc =>
          have := ih (IncreaseCallCount c)
          rw [IncreaseCallCount_count] at this
          simp only [runEvents, applyEvent, numIncs, numDecs]
          rw [this]; push_cast; ring
      | dec now =>
          have := ih (DecreaseCallCount c now)
          rw [DecreaseCallCount_count] at this
          simp only [runEvents, applyEvent, numIncs, numDecs]
          rw [this]; push_cast; ring
      | fire b =>
          have := ih (IdleTimerCallback c b).1
          rw [IdleTimerCallback_count] at this
          simp only [runEvents, applyEvent, numIncs, numDecs]
          rw [this]

/-- `IncreaseCallCount` keeps a parked tracker parked. -/
theorem IncreaseCallCount_parked {c : Shared} (h : parked c) :
    parked (IncreaseCallCount c) := by
  obtain ⟨cc, st, lit, cit, ts, td⟩ := c
  obtain ⟨hst, hcc⟩ := h
  simp only at hcc
  have hne : cc ≠ 0 := by omega
  rcases hst with hst | hst <;> simp only at hst <;> subst hst <;>
    simp [IncreaseCallCount, hne, parked] <;> omega

/-- `DecreaseCallCount` keeps a parked tracker parked as long as the counter
stays at least 2 (the phony disconnect call is never matched). -/
theorem DecreaseCallCount_parked {c : Shared} (now : Int) (h : parked c)
    (h2 : 2 ≤ c.call_count_) : parked (DecreaseCallCount c now) := by
  obtain ⟨cc, st, lit, cit, ts, td⟩ := c
  obtain ⟨hst, _⟩ := h
  simp only at h2
  have hne : cc ≠ 1 := by omega
  rcases hst with hst | hst <;> simp only at hst <;> subst hst <;>
    simp [DecreaseCallCount, hne, parked] <;> omega

/-- `IdleTimerCallback` keeps a parked tracker parked and emits nothing. -/
theorem IdleTimerCallback_parked {c : Shared} (b : Bool) (h : parked c) :
    parked (IdleTimerCallback c b).1 ∧ (IdleTimerCallback c b).2 = [] := by
  obtain ⟨cc, st, lit, cit, ts, td⟩ := c
  obtain ⟨hst, hcc⟩ := h
  simp only at hcc
  cases ts
  · exact ⟨⟨hst, hcc⟩, by simp [IdleTimerCallback]⟩
  · cases b
    · rcases hst with hst | hst <;> simp only at hst <;> subst hst <;>
        simp [IdleTimerCallback, parked] <;> omega
    · rcases hst with hst | hst <;> simp only at hst <;> subst hst <;>
        simp [IdleTimerCallback, parked] <;> omega

/-- Along any event sequence whose decrements never consume the phony call, a
parked tracker stays parked and nothing is emitted. -/
theorem runEvents_parked :
    ∀ (evs : List Event) (c : Shared), parked c →
      noMatchingDec c.call_count_ evs = true →
      parked (runEvents c evs).1 ∧ (runEvents c evs).2 = [] := by
  intro evs
  induction evs with
  | nil => intro c h _; exact ⟨h, by simp [runEvents]⟩
  | cons e r ih =>
      intro c h hseq
      cases e with
      | inc =>
          simp only [noMatchingDec] at hseq
          have hseq' : noMatchingDec (IncreaseCallCount c).call_count_ r = true := by
            rw [IncreaseCallCount_count]; exact hseq
          have hrec := ih (IncreaseCallCount c) (IncreaseCallCount_parked h) hseq'
          simpa [runEvents, applyEvent] using hrec
      | dec now =>
          simp only [noMatchingDec, Bool.and_eq_true, decide_eq_true_eq] at hseq
          have hseq' : noMatchingDec (DecreaseCallCount c now).call_count_ r = true := by
            rw [DecreaseCallCount_count]; exact hseq.2
          have hrec := ih (DecreaseCallCount c now)
            (DecreaseCallCount_parked now h hseq.1) hseq'
          simpa [runEvents, applyEvent] using hrec
      | fire b =>
          simp only [noMatchingDec] at hseq
          have hseq' : noMatchingDec (IdleTimerCallback c b).1.call_count_ r = true := by
            rw [IdleTimerCallback_count]; exact hseq
          have hfire := IdleTimerCallback_parked b h
          have hrec := ih (IdleTimerCallback c b).1 hfire.1 hseq'
          refine ⟨by simpa [runEvents, applyEvent] using hrec.1, ?_⟩
          simp only [runEvents, applyEvent, List.append_eq_nil]
          exact ⟨hfire.2, hrec.2⟩

/-- The disconnect path parks the tracker: from any quiescent configuration
the phony increment leaves the state in CALLS_ACTIVE or
TIMER_PENDING_CALLS_ACTIVE with a positive counter. -/
theorem disconnect_parked {c : Shared} (h : countOk c) :
    parked (StartTransportOpDisconnect c) := by
  obtain ⟨cc, st, lit, cit, ts, td⟩ := c
  cases st
  case IDLE =>
    simp only [countOk] at h; subst h
    simp [StartTransportOpDisconnect, grpc_timer_cancel, IncreaseCallCount, parked]
  case CALLS_ACTIVE =>
    simp only [countOk] at h
    have hne : cc ≠ 0 := by omega
    simp [StartTransportOpDisconnect, grpc_timer_cancel, IncreaseCallCount, hne, parked]
    omega
  case TIMER_PENDING =>
    simp only [countOk] at h; subst h
    simp [StartTransportOpDisconnect, grpc_timer_cancel, IncreaseCallCount, parked]
  case TIMER_PENDING_CALLS_ACTIVE =>
    simp only [countOk] at h
    have hne : cc ≠ 0 := by omega
    simp [StartTransportOpDisconnect, grpc_timer_cancel, IncreaseCallCount, hne, parked]
    omega
  case TIMER_PENDING_CALLS_SEEN_SINCE_TIMER_START =>
    simp only [countOk] at h; subst h
    simp [StartTransportOpDisconnect, grpc_timer_cancel, IncreaseCallCount, parked]
  case PROCESSING =>
    simp only [countOk] at h

/-- Claim C1, counterexample: the claim "for every interleaving of
increase_count, decrease_count and timer-fire events, EnterIdle is never
emitted while the call counter is non-zero" is false for fine-grained
interleavings.  In `raceCfg`/`raceSched` one call completes (arming the idle
timer), a second call's `fetch_add` raises `call_count_` to 1, and only then
does the timer callback load TIMER_PENDING, CAS it to PROCESSING and call
EnterIdle: the execution reaches EnterIdle inside the timer callback with
`call_count_ = 1 > 0`. -/
theorem C1_counterexample :
    (runSched raceCfg raceSched).log = [1] ∧
      ¬ ∀ v ∈ (runSched raceCfg raceSched).log, v = 0 := by
  decide

/-- Claim C1, amended: when each increase_count, decrease_count and
timer-fire operation executes atomically (no operation in flight while
another runs) and every decrement is matched by a preceding increment,
EnterIdle is never emitted while the counter is non-zero: every emission in a
well-formed event run from the initial tracker state records counter 0. -/
theorem C1_no_spurious_idle (timeout : Int) (evs : List Event)
    (hwf : wfCalls 0 evs = true) :
    ∀ v ∈ (runEvents (initShared timeout) evs).2, v = 0 := by
  have h0 : countOk (initShared timeout) := by simp [countOk, initShared]
  exact (runEvents_noSpurious evs (initShared timeout) h0 hwf).2

/-- Witness for C1_no_spurious_idle at a concrete run (one call, then the
timer fires and emits EnterIdle): the first emission of that run records
counter 0. -/
theorem C1_no_spurious_idle_witness :
    wfCalls 0 [Event.inc, Event.dec 5, Event.fire false] = true ∧
    (runEvents (initShared 1000) [Event.inc, Event.dec 5, Event.fire false]).2.getD 0 37 = 0 :=
  ⟨by decide,
   C1_no_spurious_idle 1000 [Event.inc, Event.dec 5, Event.fire false] (by decide)
     ((runEvents (initShared 1000) [Event.inc, Event.dec 5, Event.fire false]).2.getD 0 37)
     (by decide)⟩

/-- Claim C2: for a non-cancelled firing of an armed idle timer: from
TIMER_PENDING the handler CASes the state to PROCESSING, emits exactly one
EnterIdle and then stores IDLE; from
TIMER_PENDING_CALLS_SEEN_SINCE_TIMER_START it CASes to PROCESSING, arms a new
timer for `last_idle_time_ + client_idle_timeout_` and stores TIMER_PENDING;
from TIMER_PENDING_CALLS_ACTIVE it CASes to CALLS_ACTIVE and emits nothing;
and a cancelled firing changes no state and emits nothing.  The `stepThread`
conjuncts show the intermediate PROCESSING CAS of the fine-grained model. -/
theorem C2_timer_callback (c : Shared) (hset : c.timer_set = true) :
    (c.state_ = .TIMER_PENDING →
        IdleTimerCallback c false =
          ({ c with timer_set := false, state_ := .IDLE }, [c.call_count_]) ∧
        stepThread c (.timerLoop .TIMER_PENDING) =
          ({ c with state_ := .PROCESSING }, .timerEnterIdle, [])) ∧
    (c.state_ = .TIMER_PENDING_CALLS_SEEN_SINCE_TIMER_START →
        IdleTimerCallback c false =
          ({ c with timer_set := true,
                    timer_deadline := c.last_idle_time_ + c.client_idle_timeout_,
                    state_ := .TIMER_PENDING }, []) ∧
        stepThread c (.timerLoop .TIMER_PENDING_CALLS_SEEN_SINCE_TIMER_START) =
          ({ c with state_ := .PROCESSING }, .timerStartTimer, [])) ∧
    (c.state_ = .TIMER_PENDING_CALLS_ACTIVE →
        IdleTimerCallback c false =
          ({ c with timer_set := false, state_ := .CALLS_ACTIVE }, [])) ∧
    IdleTimerCallback c true = ({ c with timer_set := false }, []) := by
  obtain ⟨cc, st, lit, cit, ts, td⟩ := c
  have hts : ts = true := hset
  subst hts
  refine ⟨?_, ?_, ?_, ?_⟩
  · intro hst
    have h' : st = .TIMER_PENDING := hst
    subst h'
    exact ⟨by simp [IdleTimerCallback, EnterIdle], by simp [stepThread]⟩
  · intro hst
    have h' : st = .TIMER_PENDING_CALLS_SEEN_SINCE_TIMER_START := hst
    subst h'
    exact ⟨by simp [IdleTimerCallback, StartIdleTimer], by simp [stepThread]⟩
  · intro hst
    have h' : st = .TIMER_PENDING_CALLS_ACTIVE := hst
    subst h'
    simp [IdleTimerCallback]
  · simp [IdleTimerCallback]

/-- Witness for C2_timer_callback: an armed timer firing in TIMER_PENDING
enters IDLE and emits one EnterIdle (with the counter value, here 0). -/
theorem C2_timer_callback_witness :
    IdleTimerCallback ⟨0, .TIMER_PENDING, 5, 1000, true, 1005⟩ false =
      (⟨0, .IDLE, 5, 1000, false, 1005⟩, [0]) :=
  ((C2_timer_callback ⟨0, .TIMER_PENDING, 5, 1000, true, 1005⟩ rfl).1 rfl).1

/-- Claim C3: a `DecreaseCallCount` whose decrement observes prior value 1
records `last_idle_time_ = now` and then transitions CALLS_ACTIVE →
TIMER_PENDING (arming the timer for `now + client_idle_timeout_`) or
TIMER_PENDING_CALLS_ACTIVE → TIMER_PENDING_CALLS_SEEN_SINCE_TIMER_START; a
decrement whose prior value is not 1 performs no state transition.  The
`stepThread` conjuncts show that in the fine-grained model the timer is armed
strictly before the store of TIMER_PENDING, and that the loop retries on any
other observed state. -/
theorem C3_decrease_call_count (c : Shared) (now : Int) :
    (c.call_count_ = 1 → c.state_ = .CALLS_ACTIVE →
        DecreaseCallCount c now =
          { c with call_count_ := 0, last_idle_time_ := now,
                   timer_set := true,
                   timer_deadline := now + c.client_idle_timeout_,
                   state_ := .TIMER_PENDING }) ∧
    (c.call_count_ = 1 → c.state_ = .TIMER_PENDING_CALLS_ACTIVE →
        DecreaseCallCount c now =
          { c with call_count_ := 0, last_idle_time_ := now,
                   state_ := .TIMER_PENDING_CALLS_SEEN_SINCE_TIMER_START }) ∧
    (c.call_count_ ≠ 1 →
        DecreaseCallCount c now = { c with call_count_ := c.call_count_ - 1 }) ∧
    (∀ d : Shared,
        stepThread d (.decLoop .CALLS_ACTIVE) =
          (StartIdleTimer d, .decStoreTimerPending, []) ∧
        stepThread (StartIdleTimer d) .decStoreTimerPending =
          ({ StartIdleTimer d with state_ := .TIMER_PENDING }, .finished, [])) ∧
    (∀ (d : Shared) (s : ChannelState), s ≠ .CALLS_ACTIVE →
        s ≠ .TIMER_PENDING_CALLS_ACTIVE →
        stepThread d (.decLoop s) = (d, .decLoop d.state_, [])) := by
  obtain ⟨cc, st, lit, cit, ts, td⟩ := c
  refine ⟨?_, ?_, ?_, ?_, ?_⟩
  · intro hcc hst
    have h1 : cc = 1 := hcc
    have h2 : st = .CALLS_ACTIVE := hst
    subst h1; subst h2
    simp [DecreaseCallCount, StartIdleTimer]
  · intro hcc hst
    have h1 : cc = 1 := hcc
    have h2 : st = .TIMER_PENDING_CALLS_ACTIVE := hst
    subst h1; subst h2
    simp [DecreaseCallCount]
  · intro hcc
    have h1 : cc ≠ 1 := hcc
    simp [DecreaseCallCount, h1]
  · intro d
    exact ⟨by simp [stepThread], by simp [stepThread]⟩
  · intro d s hs1 hs2
    cases s <;> simp [stepThread] <;> first | rfl | (exact absurd rfl hs1) | (exact absurd rfl hs2)

/-- Witness for C3_decrease_call_count: the last active call finishing in
CALLS_ACTIVE arms the timer for `now + timeout` and stores TIMER_PENDING. -/
theorem C3_decrease_call_count_witness :
    DecreaseCallCount ⟨1, .CALLS_ACTIVE, 0, 1000, false, 0⟩ 7 =
      ⟨0, .TIMER_PENDING, 7, 1000, true, 1007⟩ :=
  (C3_decrease_call_count ⟨1, .CALLS_ACTIVE, 0, 1000, false, 0⟩ 7).1 rfl rfl

/-- Claim C4: an `IncreaseCallCount` whose increment observes prior value 0
transitions IDLE → CALLS_ACTIVE by a plain store, or TIMER_PENDING /
TIMER_PENDING_CALLS_SEEN_SINCE_TIMER_START → TIMER_PENDING_CALLS_ACTIVE by a
CAS, and busy-spins (reloading the state) while the observed state is
PROCESSING.  The `stepThread` conjuncts show the fine-grained spin (a step on
an observed PROCESSING leaves the shared state unchanged and reloads) and the
successful CAS step. -/
theorem C4_increase_call_count (c : Shared) :
    (c.call_count_ = 0 → c.state_ = .IDLE →
        IncreaseCallCount c = { c with call_count_ := 1, state_ := .CALLS_ACTIVE }) ∧
    (c.call_count_ = 0 → c.state_ = .TIMER_PENDING →
        IncreaseCallCount c =
          { c with call_count_ := 1, state_ := .TIMER_PENDING_CALLS_ACTIVE }) ∧
    (c.call_count_ = 0 → c.state_ = .TIMER_PENDING_CALLS_SEEN_SINCE_TIMER_START →
        IncreaseCallCount c =
          { c with call_count_ := 1, state_ := .TIMER_PENDING_CALLS_ACTIVE }) ∧
    (∀ d : Shared, stepThread d (.incLoop .PROCESSING) = (d, .incLoop d.state_, [])) ∧
    (∀ (d : Shared) (s : ChannelState), d.state_ = s →
        s = .TIMER_PENDING ∨ s = .TIMER_PENDING_CALLS_SEEN_SINCE_TIMER_START →
        stepThread d (.incLoop s) =
          ({ d with state_ := .TIMER_PENDING_CALLS_ACTIVE }, .finished, [])) := by
  obtain ⟨cc, st, lit, cit, ts, td⟩ := c
  refine ⟨?_, ?_, ?_, ?_, ?_⟩
  · intro hcc hst
    have h1 : cc = 0 := hcc
    have h2 : st = .IDLE := hst
    subst h1; subst h2
    simp [IncreaseCallCount]
  · intro hcc hst
    have h1 : cc = 0 := hcc
    have h2 : st = .TIMER_PENDING := hst
    subst h1; subst h2
    simp [IncreaseCallCount]
  · intro hcc hst
    have h1 : cc = 0 := hcc
    have h2 : st = .TIMER_PENDING_CALLS_SEEN_SINCE_TIMER_START := hst
    subst h1; subst h2
    simp [IncreaseCallCount]
  · intro d; simp [stepThread]
  · intro d s hds hs
    rcases hs with hs | hs <;> subst hs <;> simp [stepThread, hds]

/-- Witness for C4_increase_call_count: a call arriving while the timer is
pending moves the tracker to TIMER_PENDING_CALLS_ACTIVE. -/
theorem C4_increase_call_count_witness :
    IncreaseCallCount ⟨0, .TIMER_PENDING, 7, 1000, true, 1007⟩ =
      ⟨1, .TIMER_PENDING_CALLS_ACTIVE, 7, 1000, true, 1007⟩ :=
  (C4_increase_call_count ⟨0, .TIMER_PENDING, 7, 1000, true, 1007⟩).2.1 rfl rfl

/-- Claim C5: after any finite event sequence (each operation run to
quiescence), the idle tracker's counter equals the number of
IncreaseCallCount calls minus the number of DecreaseCallCount calls, starting
from 0; timer firings never change it. -/
theorem C5_counter_balance (timeout : Int) (evs : List Event) :
    (runEvents (initShared timeout) evs).1.call_count_ =
      (numIncs evs : Int) - (numDecs evs : Int) := by
  have := runEvents_count evs (initShared timeout)
  simpa [initShared] using this

/-- Claim C9: an `IncreaseCallCount` whose increment observes a prior value
other than 0, and a `DecreaseCallCount` whose decrement observes a prior
value other than 1, modify only the counter: `state_`, `last_idle_time_` and
the timer are untouched, and nothing is emitted (emissions happen only in the
timer callback). -/
theorem C9_counter_only_frame (c : Shared) (now : Int) :
    (c.call_count_ ≠ 0 →
        IncreaseCallCount c = { c with call_count_ := c.call_count_ + 1 }) ∧
    (c.call_count_ ≠ 1 →
        DecreaseCallCount c now = { c with call_count_ := c.call_count_ - 1 }) := by
  obtain ⟨cc, st, lit, cit, ts, td⟩ := c
  constructor
  · intro hcc
    have h1 : cc ≠ 0 := hcc
    simp [IncreaseCallCount, h1]
  · intro hcc
    have h1 : cc ≠ 1 := hcc
    simp [DecreaseCallCount, h1]

/-- Witness for C9_counter_only_frame: a second call arriving and a
non-final call finishing leave everything but the counter unchanged. -/
theorem C9_counter_only_frame_witness :
    IncreaseCallCount ⟨1, .CALLS_ACTIVE, 3, 1000, false, 0⟩ =
      ⟨2, .CALLS_ACTIVE, 3, 1000, false, 0⟩ ∧
    DecreaseCallCount ⟨2, .CALLS_ACTIVE, 3, 1000, false, 0⟩ 9 =
      ⟨1, .CALLS_ACTIVE, 3, 1000, false, 0⟩ :=
  ⟨(C9_counter_only_frame ⟨1, .CALLS_ACTIVE, 3, 1000, false, 0⟩ 9).1 (by decide),
   (C9_counter_only_frame ⟨2, .CALLS_ACTIVE, 3, 1000, false, 0⟩ 9).2 (by decide)⟩

/-- Claim C6: the disconnect transport op (phony IncreaseCallCount, then
grpc_timer_cancel) leaves the timer unarmed and the tracker parked in
CALLS_ACTIVE or TIMER_PENDING_CALLS_ACTIVE with a positive counter; along
every subsequent event sequence in which the phony call is never decremented
(every decrement happens with counter at least 2), no EnterIdle is ever
emitted and the tracker stays parked. -/
theorem C6_disconnect_parks (c : Shared) (hq : countOk c) (evs : List Event)
    (hseq : noMatchingDec (StartTransportOpDisconnect c).call_count_ evs = true) :
    (StartTransportOpDisconnect c).timer_set = false ∧
    parked (StartTransportOpDisconnect c) ∧
    (runEvents (StartTransportOpDisconnect c) evs).2 = [] ∧
    parked (runEvents (StartTransportOpDisconnect c) evs).1 := by
  have hp := disconnect_parked hq
  have hrun := runEvents_parked evs _ hp hseq
  exact ⟨by simp [StartTransportOpDisconnect, grpc_timer_cancel], hp, hrun.2, hrun.1⟩

/-- Witness for C6_disconnect_parks: disconnect from the initial state, then
a call arrives, the stale timer fires, and the call finishes - nothing is
emitted and the tracker stays parked. -/
theorem C6_disconnect_parks_witness :
    parked (StartTransportOpDisconnect (initShared 50)) ∧
    (runEvents (StartTransportOpDisconnect (initShared 50))
        [.inc, .fire false, .dec 3]).2 = [] ∧
    parked (runEvents (StartTransportOpDisconnect (initShared 50))
        [.inc, .fire false, .dec 3]).1 := by
  have h := C6_disconnect_parks (initShared 50) (by simp [countOk, initShared])
    [.inc, .fire false, .dec 3] (by decide)
  exact ⟨h.2.1, h.2.2.1, h.2.2.2⟩

/-- Claim C7: the effective idle timeout is always at least
MIN_IDLE_TIMEOUT_MS = 1000 ms (a configured value below 1000 is raised to
1000), and an absent key yields the default INT_MAX, in which case the
client-idle filter is not added to the channel stack. -/
theorem C7_client_idle_timeout (arg : Option Int) :
    MIN_IDLE_TIMEOUT_MS ≤ GetClientIdleTimeout arg ∧
    (∀ v : Int, arg = some v → v < MIN_IDLE_TIMEOUT_MS →
        GetClientIdleTimeout arg = MIN_IDLE_TIMEOUT_MS) ∧
    (arg = none →
        GetClientIdleTimeout none = INT_MAX ∧
        ∀ b : Bool, MaybeAddClientIdleFilter b none = false) := by
  refine ⟨le_max_right _ _, ?_, ?_⟩
  · intro v hv hlt
    subst hv
    simp only [MIN_IDLE_TIMEOUT_MS] at hlt
    by_cases h0 : v < 0
    · simp [GetClientIdleTimeout, grpc_channel_arg_get_integer, h0, MIN_IDLE_TIMEOUT_MS]
    · have h1 : ¬ v > INT_MAX := by simp only [INT_MAX]; omega
      simp only [GetClientIdleTimeout, grpc_channel_arg_get_integer, if_neg h0, if_neg h1,
        MIN_IDLE_TIMEOUT_MS]
      exact max_eq_right (by omega)
  · intro _
    exact ⟨by decide, by intro b; cases b <;> decide⟩

/-- Witness for C7_client_idle_timeout: a configured 5 ms is raised to
1000 ms, and the absent key yields INT_MAX and no filter. -/
theorem C7_client_idle_timeout_witness :
    GetClientIdleTimeout (some 5) = MIN_IDLE_TIMEOUT_MS ∧
    GetClientIdleTimeout none = INT_MAX ∧
    MaybeAddClientIdleFilter false none = false :=
  ⟨(C7_client_idle_timeout (some 5)).2.1 5 rfl (by decide),
   ((C7_client_idle_timeout none).2.2 rfl).1,
   ((C7_client_idle_timeout none).2.2 rfl).2 false⟩

/-- Dispatching a task other than `h` does not change the status of `h`. -/
theorem dispatchTask_status_other (e : TimerService) (k h : Nat) (hk : k ≠ h) :
    (dispatchTask e k).1.status h = e.status h := by
  cases hsk : e.status k
  · simp only [dispatchTask, hsk]
    rw [if_neg (fun hc => hk hc.symm)]
  · simp [dispatchTask, hsk]
  · simp [dispatchTask, hsk]

/-- Cancelling a task other than `h` does not change the status of `h`. -/
theorem Cancel_status_other (e : TimerService) (k h : Nat) (hk : k ≠ h) :
    (Cancel e k).1.status h = e.status h := by
  cases hsk : e.status k
  · simp only [Cancel, hsk]
    rw [if_neg (fun hc => hk hc.symm)]
  · simp [Cancel, hsk]
  · simp [Cancel, hsk]

/-- A dispatch of a task that is no longer pending is a no-op and the closure
does not run. -/
theorem dispatchTask_not_pending {e : TimerService} {k : Nat}
    (h0 : e.status k ≠ .pending) : dispatchTask e k = (e, false) := by
  cases hsk : e.status k
  · exact absurd hsk h0
  · simp [dispatchTask, hsk]
  · simp [dispatchTask, hsk]

/-- A cancel of a task that is no longer pending is a no-op returning false. -/
theorem Cancel_not_pending {e : TimerService} {k : Nat}
    (h0 : e.status k ≠ .pending) : Cancel e k = (e, false) := by
  cases hsk : e.status k
  · exact absurd hsk h0
  · simp [Cancel, hsk]
  · simp [Cancel, hsk]

/-- Once task `h` is no longer pending, its status never changes and no
further run of its closure nor successful cancel of it can occur. -/
theorem runActs_resolved :
    ∀ (as : List EngineAction) (e : TimerService) (h : Nat),
      e.status h ≠ .pending →
      (runActs e h as).1.status h = e.status h ∧
      (runActs e h as).2.1 = 0 ∧ (runActs e h as).2.2 = 0 := by
  intro as
  induction as with
  | nil => intro e h _; exact ⟨rfl, rfl, rfl⟩
  | cons a r ih =>
      intro e h h0
      cases a with
      | dispatch k =>
          by_cases hk : k = h
          · subst hk
            have hd := dispatchTask_not_pending h0
            have hrec := ih e k h0
            simp [runActs, hd, hrec.1, hrec.2.1, hrec.2.2]
          · have hst : (dispatchTask e k).1.status h = e.status h :=
              dispatchTask_status_other e k h hk
            have hrec := ih (dispatchTask e k).1 h (by rw [hst]; exact h0)
            simp [runActs, hk, hrec.2.1, hrec.2.2]
            rw [hrec.1, hst]
      | cancel k =>
          by_cases hk : k = h
          · subst hk
            have hd := Cancel_not_pending h0
            have hrec := ih e k h0
            simp [runActs, hd, hrec.1, hrec.2.1, hrec.2.2]
          · have hst : (Cancel e k).1.status h = e.status h :=
              Cancel_status_other e k h hk
            have hrec := ih (Cancel e k).1 h (by rw [hst]; exact h0)
            simp [runActs, hk, hrec.2.1, hrec.2.2]
            rw [hrec.1, hst]

/-- For a pending task, the number of closure runs plus the number of
successful cancels over any action sequence is 0 if the task is still pending
at the end and exactly 1 otherwise. -/
theorem runActs_pending :
    ∀ (as : List EngineAction) (e : TimerService) (h : Nat),
      e.status h = .pending →
      (runActs e h as).2.1 + (runActs e h as).2.2 =
        (if (runActs e h as).1.status h = .pending then 0 else 1) := by
  intro as
  induction as with
  | nil => intro e h hp; simp [runActs, hp]
  | cons a r ih =>
      intro e h hp
      cases a with
      | dispatch k =>
          by_cases hk : k = h
          · subst hk
            have hd : dispatchTask e k =
                ({ e with status := fun j => if j = k then .ran else e.status j }, true) := by
              simp [dispatchTask, hp]
            have hres := runActs_resolved r
              ({ e with status := fun j => if j = k then .ran else e.status j }) k
              (by simp)
            simp [runActs, hd, hres.1, hres.2.1, hres.2.2]
          · have hst : (dispatchTask e k).1.status h = e.status h :=
              dispatchTask_status_other e k h hk
            have hrec := ih (dispatchTask e k).1 h (by rw [hst]; exact hp)
            simp [runActs, hk]
            exact hrec
      | cancel k =>
          by_cases hk : k = h
          · subst hk
            have hd : Cancel e k =
                ({ e with status := fun j => if j = k then .cancelled else e.status j }, true) := by
              simp [Cancel, hp]
            have hres := runActs_resolved r
              ({ e with status := fun j => if j = k then .cancelled else e.status j }) k
              (by simp)
            simp [runActs, hd, hres.1, hres.2.1, hres.2.2]
          · have hst : (Cancel e k).1.status h = e.status h :=
              Cancel_status_other e k h hk
            have hrec := ih (Cancel e k).1 h (by rw [hst]; exact hp)
            simp [runActs, hk]
            exact hrec

/-- Claim C8: for a scheduled deadline task, over any sequence of engine
actions, the number of closure invocations plus the number of successful
cancels is at most 1 - so a cancel that returned true implies the closure
never runs, and the closure never runs twice - and once the task is resolved
(dispatched or cancelled, as every due task eventually is) that sum is
exactly 1: exactly one of the two outcomes (callback runs, cancel
returned true) occurs. -/
theorem C8_cancel_contract (e : TimerService) (h : Nat) (as : List EngineAction)
    (hp : e.status h = .pending) :
    (runActs e h as).2.1 + (runActs e h as).2.2 ≤ 1 ∧
    ((runActs e h as).1.status h ≠ .pending →
        (runActs e h as).2.1 + (runActs e h as).2.2 = 1) := by
  have hsum := runActs_pending as e h hp
  constructor
  · rw [hsum]
    by_cases hf : (runActs e h as).1.status h = .pending <;> simp [hf]
  · intro hres
    rw [hsum, if_neg hres]

/-- Witness for C8_cancel_contract: cancel then a (failed) dispatch of the
same task, starting from a single pending task: the sum of closure runs and
successful cancels is exactly 1. -/
theorem C8_cancel_contract_witness :
    (runActs ⟨1, fun _ => .pending⟩ 0 [.cancel 0, .dispatch 0]).2.1 +
      (runActs ⟨1, fun _ => .pending⟩ 0 [.cancel 0, .dispatch 0]).2.2 = 1 :=
  (C8_cancel_contract ⟨1, fun _ => .pending⟩ 0 [.cancel 0, .dispatch 0] rfl).2
    (by decide)

/-- Claim C10: the wakeup-fd factory registration is first-writer-wins - once
a factory is registered, any later `SetDefaultWakeupFdFactoryIfUnset` call
(even a whole sequence of them) leaves the registered factory unchanged - and
`CreateWakeupFd` returns the NotFound error exactly when no factory is
registered. -/
theorem C10_wakeup_fd_factory {F : Type} (g : Option F) :
    (∀ f : F, g = some f →
        (∀ f2 : Option F, SetDefaultWakeupFdFactoryIfUnset f2 g = g) ∧
        ∀ fs : List (Option F),
          fs.foldl (fun s f2 => SetDefaultWakeupFdFactoryIfUnset f2 s) g = g) ∧
    (CreateWakeupFd g = .notFound ↔ g = none) := by
  constructor
  · intro f hf
    subst hf
    refine ⟨fun f2 => rfl, ?_⟩
    intro fs
    induction fs with
    | nil => rfl
    | cons a r ih => simpa [SetDefaultWakeupFdFactoryIfUnset] using ih
  · cases g <;> simp [CreateWakeupFd, SupportsWakeupFd]

/-- Witness for C10_wakeup_fd_factory: with factory 1 registered, a later
registration of factory 2 is ignored, and CreateWakeupFd does not return
NotFound. -/
theorem C10_wakeup_fd_factory_witness :
    SetDefaultWakeupFdFactoryIfUnset (some 2) (some (1 : Nat)) = some 1 ∧
    (CreateWakeupFd (some (1 : Nat)) = .notFound ↔ (some (1 : Nat) : Option Nat) = none) :=
  ⟨((C10_wakeup_fd_factory (some 1)).1 1 rfl).1 (some 2),
   (C10_wakeup_fd_factory (some (1 : Nat))).2⟩

end Grpc
